import Mathlib

/-!
A verification development for the crankshaft singularity backend
(crankshaft-singularity/src/lib.rs): the configuration model (HostConfig and
the Singularity builder), the command translation performed by exec and
pull_image, and the execution gateway's result classification. The external
process primitive is modelled as an oracle from argument vectors to outcomes,
and the filesystem existence test as a predicate on paths; everything else is
translated directly from the source.
-/

/-- The base command invoked for every operation (const COMMAND_BASE). -/
def COMMAND_BASE : String := "singularity"

/-- Host-level resource and isolation policy (struct HostConfig). All fields
are public in the source, so arbitrary field values are constructible. -/
structure HostConfig where
  cpu_shares : Option Nat
  cpus : Option Nat
  memory : Option Nat
  memory_reservation : Option Nat
  binds : Option (List (String × String))
  contain_all : Bool
deriving Repr, DecidableEq

/-- impl Default for HostConfig: no cpu_shares, one cpu, no memory limit,
a 2 GiB memory reservation, no binds, contain_all set. -/
def HostConfig.default : HostConfig :=
  ⟨none, some 1, none, some (2 * 1024 * 1024 * 1024), none, true⟩

/-- The Singularity client configuration (struct Singularity). The env
mapping is an insertion-ordered association list, mirroring IndexMap. -/
structure Singularity where
  image : String
  program : String
  args : List String
  attach_stdout : Bool
  attach_stderr : Bool
  env : List (String × String)
  work_dir : Option String
  host_config : Option HostConfig
deriving Repr, DecidableEq

/-- IndexMap.insert on the association-list model: when the key is already
present its value is overwritten in place (position kept); otherwise the new
pair is appended at the end. -/
def indexMapInsert (m : List (String × String)) (k v : String) :
    List (String × String) :=
  if m.any fun p => p.1 == k then
    m.map fun p => if p.1 == k then (k, v) else p
  else
    m ++ [(k, v)]

/-- Singularity::new — every field at its default. -/
def Singularity.new : Singularity :=
  ⟨"", "", [], false, false, [], none, none⟩

/-- Singularity::image builder. -/
def Singularity.withImage (s : Singularity) (image : String) : Singularity :=
  ⟨image, s.program, s.args, s.attach_stdout, s.attach_stderr, s.env,
    s.work_dir, s.host_config⟩

/-- Singularity::program builder. -/
def Singularity.withProgram (s : Singularity) (program : String) : Singularity :=
  ⟨s.image, program, s.args, s.attach_stdout, s.attach_stderr, s.env,
    s.work_dir, s.host_config⟩

/-- Singularity::arg builder — push one argument. -/
def Singularity.withArg (s : Singularity) (arg : String) : Singularity :=
  ⟨s.image, s.program, s.args ++ [arg], s.attach_stdout, s.attach_stderr,
    s.env, s.work_dir, s.host_config⟩

/-- Singularity::args builder — extend the argument list. -/
def Singularity.withArgs (s : Singularity) (args : List String) : Singularity :=
  ⟨s.image, s.program, s.args ++ args, s.attach_stdout, s.attach_stderr,
    s.env, s.work_dir, s.host_config⟩

/-- Singularity::attach_stdout builder — sets the flag to true. -/
def Singularity.withAttachStdout (s : Singularity) : Singularity :=
  ⟨s.image, s.program, s.args, true, s.attach_stderr, s.env, s.work_dir,
    s.host_config⟩

/-- Singularity::attach_stderr builder — sets the flag to true. -/
def Singularity.withAttachStderr (s : Singularity) : Singularity :=
  ⟨s.image, s.program, s.args, s.attach_stdout, true, s.env, s.work_dir,
    s.host_config⟩

/-- Singularity::env builder — one IndexMap insert. -/
def Singularity.withEnv (s : Singularity) (name value : String) : Singularity :=
  ⟨s.image, s.program, s.args, s.attach_stdout, s.attach_stderr,
    indexMapInsert s.env name value, s.work_dir, s.host_config⟩

/-- Singularity::envs builder — IndexMap extend, i.e. repeated insert. -/
def Singularity.withEnvs (s : Singularity) (vars : List (String × String)) :
    Singularity :=
  ⟨s.image, s.program, s.args, s.attach_stdout, s.attach_stderr,
    vars.foldl (fun m p => indexMapInsert m p.1 p.2) s.env, s.work_dir,
    s.host_config⟩

/-- Singularity::work_dir builder. -/
def Singularity.withWorkDir (s : Singularity) (work_dir : String) : Singularity :=
  ⟨s.image, s.program, s.args, s.attach_stdout, s.attach_stderr, s.env,
    some work_dir, s.host_config⟩

/-- Singularity::host_config builder. -/
def Singularity.withHostConfig (s : Singularity) (host_config : HostConfig) :
    Singularity :=
  ⟨s.image, s.program, s.args, s.attach_stdout, s.attach_stderr, s.env,
    s.work_dir, some host_config⟩

/-- The bind-mount source exec iterates over:
`self.host_config.as_ref().and_then(|h| h.binds.clone()).unwrap_or_else(|| binds)`. -/
def Singularity.bindSource (s : Singularity) (binds : List (String × String)) :
    List (String × String) :=
  (s.host_config.bind fun h => h.binds).getD binds

/-- One bind flag element: `format!("--bind {}:{}", host_path, container_path)`. -/
def bindFlag (p : String × String) : String :=
  "--bind " ++ p.1 ++ ":" ++ p.2

/-- A numeric flag: one element `pre ++ n` when the field is present, nothing
otherwise. -/
def natFlag (pre : String) (o : Option Nat) : List String :=
  o.elim [] fun n => [pre ++ toString n]

/-- One environment flag element: `format!("--env {}={}", key, value)`. -/
def envFlag (p : String × String) : String :=
  "--env " ++ p.1 ++ "=" ++ p.2

/-- The working-directory flag (`format!("--workdir {}", work_dir)`), emitted
only when work_dir is present. -/
def Singularity.workDirFlag (s : Singularity) : List String :=
  s.work_dir.elim [] fun w => ["--workdir " ++ w]

/-- The contain-all flag, emitted only when host_config is present and its
contain_all field is true. -/
def Singularity.containFlag (s : Singularity) : List String :=
  match s.host_config with
  | some h => if h.contain_all then ["--containall"] else []
  | none => []

/-- All flag tokens pushed by exec before the caller-supplied extra arguments,
in source order: bind mounts, cpu_shares, cpus, memory, memory_reservation,
environment variables, working directory, contain-all. -/
def Singularity.execFlags (s : Singularity) (binds : List (String × String)) :
    List String :=
  (s.bindSource binds).map bindFlag
    ++ natFlag "--cpu-shares=" (s.host_config.bind fun h => h.cpu_shares)
    ++ natFlag "--cpus=" (s.host_config.bind fun h => h.cpus)
    ++ natFlag "--memory=" (s.host_config.bind fun h => h.memory)
    ++ natFlag "--memory-reservation=" (s.host_config.bind fun h => h.memory_reservation)
    ++ s.env.map envFlag
    ++ s.workDirFlag
    ++ s.containFlag

/-- The argument vector Singularity::exec passes to the runtime after the
command base: "exec", the flags, the caller-supplied extra arguments, the
image, the program, and the spec's own arguments, in exactly this order. -/
def Singularity.build_exec_args (s : Singularity) (binds : List (String × String))
    (args : List String) : List String :=
  "exec" :: (s.execFlags binds ++ args ++ s.image :: s.program :: s.args)

/-- The argument vector pull_image passes to the runtime after the command
base: "pull", the output path, the image. -/
def build_pull_args (image output_path : String) : List String :=
  ["pull", output_path, image]

/-- The outcome the operating system reports for one spawn attempt: either the
process ran to completion (with success status and captured streams) or the
spawn itself failed. -/
inductive ProcResult where
  | spawned (success : Bool) (stdout : String) (stderr : String)
  | spawnFailed (err : String)
deriving Repr, DecidableEq

/-- Captured output of a completed subprocess (std::process::Output). -/
structure ProcOutput where
  success : Bool
  stdout : String
  stderr : String
deriving Repr, DecidableEq

/-- A spawner oracle: what the external process primitive does for a given
argument vector. -/
def Spawner : Type := List String → ProcResult

/-- Singularity::exec — assemble the argument vector, spawn once, classify the
outcome. Returns the result together with the trace of spawned argument
vectors (so that "the runtime was not invoked" is expressible). -/
def Singularity.exec (s : Singularity) (spawn : Spawner)
    (binds : List (String × String)) (args : List String) :
    Except String ProcOutput × List (List String) :=
  let argv := COMMAND_BASE :: s.build_exec_args binds args
  match spawn argv with
  | ProcResult.spawned true out err => (Except.ok ⟨true, out, err⟩, [argv])
  | ProcResult.spawned false _ err =>
      (Except.error ("Failed to execute command: " ++ err), [argv])
  | ProcResult.spawnFailed e =>
      (Except.error ("Failed to execute Singularity: " ++ e), [argv])

/-- Singularity::pull_image — short-circuit to success when output_path already
exists on the filesystem (modelled as an existence predicate), otherwise spawn
the pull command and classify the outcome. -/
def Singularity.pull_image (fs : String → Bool) (spawn : Spawner)
    (image output_path : String) : Except String Unit × List (List String) :=
  if fs output_path then (Except.ok (), [])
  else
    let argv := COMMAND_BASE :: build_pull_args image output_path
    match spawn argv with
    | ProcResult.spawned true _ _ => (Except.ok (), [argv])
    | ProcResult.spawned false _ err =>
        (Except.error ("Failed to pull image: " ++ err), [argv])
    | ProcResult.spawnFailed e =>
        (Except.error ("Failed to execute Singularity: " ++ e), [argv])

/-- The spec's HostConfig invariant: numeric fields, when present, are strictly
positive, and every bind path is a non-empty string. -/
def hostConfigInvariant (h : HostConfig) : Prop :=
  (∀ n, h.cpu_shares = some n → 0 < n) ∧
  (∀ n, h.cpus = some n → 0 < n) ∧
  (∀ n, h.memory = some n → 0 < n) ∧
  (∀ n, h.memory_reservation = some n → 0 < n) ∧
  (∀ bs, h.binds = some bs → ∀ p ∈ bs, p.1 ≠ "" ∧ p.2 ≠ "")

/-- Replace only the stream-attachment fields of a configuration; every pair of
configurations differing only in those fields arises this way. -/
def setAttach (s : Singularity) (a b : Bool) : Singularity :=
  ⟨s.image, s.program, s.args, a, b, s.env, s.work_dir, s.host_config⟩

theorem getElem_append_offset {α : Type} (xs ys : List α) (n : Nat) :
    (xs ++ ys)[xs.length + n]? = ys[n]? := by
  induction xs with
  | nil => simp
  | cons a xs ih =>
      have h : (a :: xs).length + n = (xs.length + n) + 1 := by
        simp [List.length_cons]
        omega
      rw [List.cons_append, h, List.getElem?_cons_succ, ih]

/-- C1: exec assembles its argument vector in exactly this order: the token
"exec"; one bind flag per selected bind entry; the cpu_shares, cpus, memory
and memory_reservation flags (each only when present); one env flag per
environment entry; the working-directory flag (only when present); the
contain-all flag (only when host_config is present with contain_all true); the
caller-supplied extra arguments; the image token; immediately after it the
program token; then the spec's args. In particular every flag token precedes
the image token and the image token immediately precedes the program token. -/
theorem exec_args_emission_order (s : Singularity) (binds : List (String × String))
    (extra : List String) :
    s.build_exec_args binds extra =
      ["exec"]
        ++ (s.bindSource binds).map bindFlag
        ++ natFlag "--cpu-shares=" (s.host_config.bind fun h => h.cpu_shares)
        ++ natFlag "--cpus=" (s.host_config.bind fun h => h.cpus)
        ++ natFlag "--memory=" (s.host_config.bind fun h => h.memory)
        ++ natFlag "--memory-reservation=" (s.host_config.bind fun h => h.memory_reservation)
        ++ s.env.map envFlag
        ++ s.workDirFlag
        ++ s.containFlag
        ++ extra
        ++ [s.image, s.program]
        ++ s.args
    ∧ (s.build_exec_args binds extra)[("exec" :: s.execFlags binds ++ extra).length]?
        = some s.image
    ∧ (s.build_exec_args binds extra)[("exec" :: s.execFlags binds ++ extra).length + 1]?
        = some s.program := by
  have hdecomp : s.build_exec_args binds extra
      = ("exec" :: s.execFlags binds ++ extra) ++ s.image :: s.program :: s.args := by
    simp [Singularity.build_exec_args]
  refine ⟨?_, ?_, ?_⟩
  · simp [Singularity.build_exec_args, Singularity.execFlags]
  · rw [hdecomp]
    simpa using
      getElem_append_offset ("exec" :: s.execFlags binds ++ extra)
        (s.image :: s.program :: s.args) 0
  · rw [hdecomp]
    simpa using
      getElem_append_offset ("exec" :: s.execFlags binds ++ extra)
        (s.image :: s.program :: s.args) 1

/-- C6: the default HostConfig has cpu_shares, memory and binds absent, cpus
present with value 1, memory_reservation present with value 2147483648, and
contain_all true; and the spec built from image ubuntu:latest, program echo,
args [hi] and this default HostConfig translates to an argument vector ending
in ubuntu:latest, echo, hi that contains the tokens --cpus=1,
--memory-reservation=2147483648 and --containall in that relative order. -/
theorem default_host_config_round_trip :
    HostConfig.default.cpu_shares = none
    ∧ HostConfig.default.cpus = some 1
    ∧ HostConfig.default.memory = none
    ∧ HostConfig.default.memory_reservation = some 2147483648
    ∧ HostConfig.default.binds = none
    ∧ HostConfig.default.contain_all = true
    ∧ ((((Singularity.new.withImage "ubuntu:latest").withProgram
          "echo").withArgs ["hi"]).withHostConfig HostConfig.default).build_exec_args [] []
        = ["exec", "--cpus=1", "--memory-reservation=2147483648", "--containall",
            "ubuntu:latest", "echo", "hi"] := by
  refine ⟨rfl, rfl, rfl, rfl, rfl, rfl, ?_⟩
  decide

/-- C8 counterexample: not every HostConfig value satisfies the invariant. A
HostConfig with cpu_shares = some 0 — producible by direct field construction,
since every field of the source struct is public — violates positivity. -/
theorem host_config_invariant_counterexample :
    ¬ hostConfigInvariant ⟨some 0, none, none, none, none, true⟩ := by
  intro h
  exact Nat.lt_irrefl 0 (h.1 0 rfl)

/-- C8 amended: the HostConfig produced by the default constructor satisfies
the invariant (all present numeric fields positive, no binds); direct field
construction is unconstrained, so the invariant does not hold of every value. -/
theorem default_host_config_invariant : hostConfigInvariant HostConfig.default := by
  refine ⟨fun n h => ?_, fun n h => ?_, fun n h => ?_, fun n h => ?_, fun bs h => ?_⟩ <;>
    simp [HostConfig.default] at h <;> omega

/-- C9: the attach_stdout and attach_stderr fields do not influence exec — two
configurations that differ only in those fields produce identical argument
vectors and identical exec outcomes against any spawner. -/
theorem attach_noninterference (s : Singularity) (a b a' b' : Bool)
    (spawn : Spawner) (binds : List (String × String)) (extra : List String) :
    (setAttach s a b).build_exec_args binds extra
        = (setAttach s a' b').build_exec_args binds extra
    ∧ (setAttach s a b).exec spawn binds extra
        = (setAttach s a' b').exec spawn binds extra :=
  ⟨rfl, rfl⟩

/-- C10: exec performs no validation of image or program: it always attempts
exactly one spawn with the assembled vector (never an early configuration
error), the vector always carries the image and program strings verbatim at
their positions, and the default-constructed client (empty image and program)
yields the vector ["exec", "", ""]. -/
theorem exec_no_validation (s : Singularity) (spawn : Spawner)
    (binds : List (String × String)) (extra : List String) :
    (s.exec spawn binds extra).2 = [COMMAND_BASE :: s.build_exec_args binds extra]
    ∧ s.build_exec_args binds extra
        = ("exec" :: s.execFlags binds ++ extra) ++ s.image :: s.program :: s.args
    ∧ (s.build_exec_args binds extra)[("exec" :: s.execFlags binds ++ extra).length]?
        = some s.image
    ∧ Singularity.new.build_exec_args [] [] = ["exec", "", ""] := by
  have hdecomp : s.build_exec_args binds extra
      = ("exec" :: s.execFlags binds ++ extra) ++ s.image :: s.program :: s.args := by
    simp [Singularity.build_exec_args]
  refine ⟨?_, hdecomp, ?_, by decide⟩
  · cases hsp : spawn (COMMAND_BASE :: s.build_exec_args binds extra) with
    | spawned success out err =>
        cases success <;> simp [Singularity.exec, hsp]
    | spawnFailed e =>
        simp [Singularity.exec, hsp]
  · rw [hdecomp]
    simpa using
      getElem_append_offset ("exec" :: s.execFlags binds ++ extra)
        (s.image :: s.program :: s.args) 0

/-- C2: the bind entries whose flags exec emits are exactly host_config.binds
when host_config is present with binds present (the caller-supplied list is
then ignored entirely, even when host_config.binds is empty), and exactly the
caller-supplied list otherwise; an empty selected source emits no bind flags. -/
theorem exec_bind_precedence (s : Singularity) (binds : List (String × String))
    (extra : List String) :
    (∀ h bs, s.host_config = some h → h.binds = some bs →
        s.bindSource binds = bs ∧
        ∀ binds', s.build_exec_args binds' extra = s.build_exec_args bs extra)
    ∧ ((s.host_config.bind fun h => h.binds) = none → s.bindSource binds = binds)
    ∧ (s.bindSource binds = [] →
        s.build_exec_args binds extra =
          "exec" :: (natFlag "--cpu-shares=" (s.host_config.bind fun h => h.cpu_shares)
            ++ natFlag "--cpus=" (s.host_config.bind fun h => h.cpus)
            ++ natFlag "--memory=" (s.host_config.bind fun h => h.memory)
            ++ natFlag "--memory-reservation=" (s.host_config.bind fun h => h.memory_reservation)
            ++ s.env.map envFlag ++ s.workDirFlag ++ s.containFlag
            ++ extra ++ s.image :: s.program :: s.args)) := by
  refine ⟨?_, ?_, ?_⟩
  · intro h bs hh hb
    have hsel : ∀ b', s.bindSource b' = bs := by
      intro b'
      simp [Singularity.bindSource, hh, hb]
    exact ⟨hsel binds, fun binds' => by
      simp [Singularity.build_exec_args, Singularity.execFlags, hsel]⟩
  · intro hnone
    simp [Singularity.bindSource, hnone]
  · intro hempty
    simp [Singularity.build_exec_args, Singularity.execFlags, hempty]

theorem exec_bind_precedence_witness :
    Singularity.bindSource
        ⟨"img", "prog", [], false, false, [], none,
          some ⟨none, none, none, none, some [("h1", "c1")], true⟩⟩ [("h2", "c2")]
      = [("h1", "c1")] :=
  ((exec_bind_precedence
      ⟨"img", "prog", [], false, false, [], none,
        some ⟨none, none, none, none, some [("h1", "c1")], true⟩⟩ [("h2", "c2")] []).1
    ⟨none, none, none, none, some [("h1", "c1")], true⟩ [("h1", "c1")] rfl rfl).1

/-- C3: the env builder preserves first-insertion order for keys not yet
present (new pairs appended) and overwrites the value in place for keys
already present (key order unchanged); the spec built by adding (a,1) then
(b,2) and overwriting a to 3 makes exec emit env flags a=3 then b=2. -/
theorem env_insertion_order (s : Singularity) (k v : String) :
    ((∀ p ∈ s.env, p.1 ≠ k) → (s.withEnv k v).env = s.env ++ [(k, v)])
    ∧ ((∃ p ∈ s.env, p.1 = k) →
        (s.withEnv k v).env.map Prod.fst = s.env.map Prod.fst ∧
        ∀ p ∈ s.env, (if p.1 = k then (k, v) else p) ∈ (s.withEnv k v).env)
    ∧ (((Singularity.new.withEnv "a" "1").withEnv "b" "2").withEnv "a"
          "3").build_exec_args [] []
        = ["exec", "--env a=3", "--env b=2", "", ""] := by
  refine ⟨?_, ?_, by decide⟩
  · intro h
    have hany : (s.env.any fun p => p.1 == k) = false := by
      simp only [List.any_eq_false, beq_iff_eq]
      exact h
    simp [Singularity.withEnv, indexMapInsert, hany]
  · intro h
    obtain ⟨p₀, hp₀, hk₀⟩ := h
    have hany : (s.env.any fun p => p.1 == k) = true := by
      refine List.any_eq_true.2 ⟨p₀, hp₀, ?_⟩
      simpa using hk₀
    constructor
    · have hfst : ∀ p ∈ s.env,
          (Prod.fst ∘ fun p : String × String =>
            if p.1 == k then (k, v) else p) p = p.1 := by
        intro p hp
        by_cases hpk : p.1 = k
        · simp [hpk]
        · simp [hpk]
      calc (s.withEnv k v).env.map Prod.fst
          = (s.env.map fun p => if p.1 == k then (k, v) else p).map Prod.fst := by
            simp [Singularity.withEnv, indexMapInsert, hany]
        _ = s.env.map (Prod.fst ∘ fun p => if p.1 == k then (k, v) else p) :=
            List.map_map _ _ _
        _ = s.env.map Prod.fst := List.map_congr_left hfst
    · intro p hp
      have heq : (if p.1 = k then (k, v) else p)
          = (fun p : String × String => if p.1 == k then (k, v) else p) p := by
        by_cases hpk : p.1 = k
        · simp [hpk]
        · simp [hpk]
      rw [heq]
      simp only [Singularity.withEnv, indexMapInsert, hany, if_true]
      exact List.mem_map_of_mem _ hp

theorem env_insertion_order_witness :
    (Singularity.new.withEnv "x" "1").env = Singularity.new.env ++ [("x", "1")] :=
  (env_insertion_order Singularity.new "x" "1").1
    (by intro p hp; simp [Singularity.new] at hp)

/-- C4: pull_image returns success without invoking the runtime when the
output path already exists; each call spawns at most once; and when a first
successful call leaves the path existing (the environmental hypothesis), the
second call is a no-op success, so across the two calls the external pull runs
at most once. -/
theorem pull_image_idempotent (fs₁ fs₂ : String → Bool) (spawn : Spawner)
    (image path : String)
    (hpost : (Singularity.pull_image fs₁ spawn image path).1 = Except.ok () →
      fs₂ path = true) :
    (fs₁ path = true → Singularity.pull_image fs₁ spawn image path = (Except.ok (), []))
    ∧ (Singularity.pull_image fs₁ spawn image path).2.length ≤ 1
    ∧ ((Singularity.pull_image fs₁ spawn image path).1 = Except.ok () →
        Singularity.pull_image fs₂ spawn image path = (Except.ok (), [])
        ∧ (Singularity.pull_image fs₁ spawn image path).2.length
            + (Singularity.pull_image fs₂ spawn image path).2.length ≤ 1) := by
  have hlen : (Singularity.pull_image fs₁ spawn image path).2.length ≤ 1 := by
    by_cases hfs : fs₁ path = true
    · simp [Singularity.pull_image, hfs]
    · have hfs' : fs₁ path = false := by
        revert hfs
        cases fs₁ path <;> simp
      cases hsp : spawn (COMMAND_BASE :: build_pull_args image path) with
      | spawned success out err =>
          cases success <;> simp [Singularity.pull_image, hfs', hsp]
      | spawnFailed e =>
          simp [Singularity.pull_image, hfs', hsp]
  refine ⟨?_, hlen, ?_⟩
  · intro h
    simp [Singularity.pull_image, h]
  · intro hok
    have hsecond : Singularity.pull_image fs₂ spawn image path = (Except.ok (), []) := by
      simp [Singularity.pull_image, hpost hok]
    refine ⟨hsecond, ?_⟩
    rw [hsecond]
    simpa using hlen

theorem pull_image_idempotent_witness :
    Singularity.pull_image (fun _ => true) (fun _ => ProcResult.spawnFailed "e")
        "img" "out" = (Except.ok (), []) :=
  (pull_image_idempotent (fun _ => true) (fun _ => true)
      (fun _ => ProcResult.spawnFailed "e") "img" "out" (fun _ => rfl)).1 rfl

/-- C5: result classification for exec and pull_image — a successful exit
yields Ok (exec returning the captured output), a nonzero exit yields an error
carrying the captured stderr text, and a spawn failure yields an error
describing it; no failure is silently swallowed. -/
theorem result_classification (s : Singularity) (spawn : Spawner)
    (binds : List (String × String)) (extra : List String)
    (fs : String → Bool) (image path : String) :
    (∀ out err,
        spawn (COMMAND_BASE :: s.build_exec_args binds extra)
            = ProcResult.spawned true out err →
        (s.exec spawn binds extra).1 = Except.ok ⟨true, out, err⟩)
    ∧ (∀ out err,
        spawn (COMMAND_BASE :: s.build_exec_args binds extra)
            = ProcResult.spawned false out err →
        (s.exec spawn binds extra).1
            = Except.error ("Failed to execute command: " ++ err))
    ∧ (∀ e,
        spawn (COMMAND_BASE :: s.build_exec_args binds extra)
            = ProcResult.spawnFailed e →
        (s.exec spawn binds extra).1
            = Except.error ("Failed to execute Singularity: " ++ e))
    ∧ (fs path = false → ∀ out err,
        spawn (COMMAND_BASE :: build_pull_args image path)
            = ProcResult.spawned true out err →
        (Singularity.pull_image fs spawn image path).1 = Except.ok ())
    ∧ (fs path = false → ∀ out err,
        spawn (COMMAND_BASE :: build_pull_args image path)
            = ProcResult.spawned false out err →
        (Singularity.pull_image fs spawn image path).1
            = Except.error ("Failed to pull image: " ++ err))
    ∧ (fs path = false → ∀ e,
        spawn (COMMAND_BASE :: build_pull_args image path)
            = ProcResult.spawnFailed e →
        (Singularity.pull_image fs spawn image path).1
            = Except.error ("Failed to execute Singularity: " ++ e)) := by
  refine ⟨fun out err h => by simp [Singularity.exec, h],
      fun out err h => by simp [Singularity.exec, h],
      fun e h => by simp [Singularity.exec, h],
      fun hfs out err h => by simp [Singularity.pull_image, hfs, h],
      fun hfs out err h => by simp [Singularity.pull_image, hfs, h],
      fun hfs e h => by simp [Singularity.pull_image, hfs, h]⟩

theorem result_classification_witness :
    (Singularity.new.exec (fun _ => ProcResult.spawned true "o" "e") [] []).1
      = Except.ok ⟨true, "o", "e"⟩ :=
  (result_classification Singularity.new (fun _ => ProcResult.spawned true "o" "e")
      [] [] (fun _ => true) "i" "p").1 "o" "e" rfl

/-- C7: every value-carrying flag is emitted as a single argument-vector
element embedding both the flag name and its value (one element per bind
entry, per present numeric field, per env entry, and for the working
directory), and each resource-limit flag is emitted only when the
corresponding HostConfig field is present — with all four numeric fields
absent, the translated vector contains no resource-limit flags at all. -/
theorem flag_single_element_and_omission (s : Singularity)
    (binds : List (String × String)) (extra : List String) :
    ((s.bindSource binds).map bindFlag).length = (s.bindSource binds).length
    ∧ (∀ p ∈ s.bindSource binds,
        ("--bind " ++ p.1 ++ ":" ++ p.2) ∈ (s.bindSource binds).map bindFlag)
    ∧ (∀ n, (s.host_config.bind fun h => h.cpu_shares) = some n →
        natFlag "--cpu-shares=" (s.host_config.bind fun h => h.cpu_shares)
          = ["--cpu-shares=" ++ toString n])
    ∧ (∀ n, (s.host_config.bind fun h => h.cpus) = some n →
        natFlag "--cpus=" (s.host_config.bind fun h => h.cpus)
          = ["--cpus=" ++ toString n])
    ∧ (∀ n, (s.host_config.bind fun h => h.memory) = some n →
        natFlag "--memory=" (s.host_config.bind fun h => h.memory)
          = ["--memory=" ++ toString n])
    ∧ (∀ n, (s.host_config.bind fun h => h.memory_reservation) = some n →
        natFlag "--memory-reservation=" (s.host_config.bind fun h => h.memory_reservation)
          = ["--memory-reservation=" ++ toString n])
    ∧ (∀ p ∈ s.env, ("--env " ++ p.1 ++ "=" ++ p.2) ∈ s.env.map envFlag)
    ∧ (∀ w, s.work_dir = some w → s.workDirFlag = ["--workdir " ++ w])
    ∧ (∀ h, s.host_config = some h → h.cpu_shares = none → h.cpus = none →
        h.memory = none → h.memory_reservation = none →
        s.build_exec_args binds extra =
          "exec" :: ((s.bindSource binds).map bindFlag ++ s.env.map envFlag
            ++ s.workDirFlag ++ s.containFlag
            ++ extra ++ s.image :: s.program :: s.args)) := by
  refine ⟨by simp, fun p hp => List.mem_map_of_mem bindFlag hp,
      fun n h => by simp [natFlag, h],
      fun n h => by simp [natFlag, h],
      fun n h => by simp [natFlag, h],
      fun n h => by simp [natFlag, h],
      fun p hp => List.mem_map_of_mem envFlag hp,
      fun w h => by simp [Singularity.workDirFlag, h],
      ?_⟩
  intro h hh h₁ h₂ h₃ h₄
  simp [Singularity.build_exec_args, Singularity.execFlags, natFlag, hh, h₁, h₂, h₃, h₄]

theorem flag_single_element_and_omission_witness :
    Singularity.build_exec_args
        ⟨"i", "p", [], false, false, [], none,
          some ⟨none, none, none, none, none, false⟩⟩ [] []
      = ["exec", "i", "p"] := by
  have h := (flag_single_element_and_omission
      ⟨"i", "p", [], false, false, [], none,
        some ⟨none, none, none, none, none, false⟩⟩ []
      []).2.2.2.2.2.2.2.2 ⟨none, none, none, none, none, false⟩ rfl rfl rfl rfl rfl
  exact h.trans (by decide)
